import Mathlib

/-!
Verification development for the clash-dashboard control client,
a shallow embedding of `src/lib/request.ts` together with the
spec-described collaborators (`AsyncSingleton`, `StreamReader` ring
buffer) whose sources live outside the provided tree.
-/

namespace ClashDashboard

/-! ## Data model (interfaces of `src/lib/request.ts`) -/

/-- `Config` interface; the field `logLevel` embeds the JSON key
`log-level` (Lean identifiers cannot contain a hyphen). -/
structure Config where
  port : Nat
  socksPort : Nat
  redirPort : Nat
  mixedPort : Nat
  allowLan : Bool
  mode : String
  logLevel : String
deriving Repr, DecidableEq

/-- Payload of the `version` endpoint. -/
structure VersionInfo where
  version : String
  premium : Option Bool
deriving Repr, DecidableEq

/-- The slice of an axios response the embedded code inspects:
HTTP status and the decoded body. -/
structure AxiosResponse (α : Type) where
  status : Nat
  data : α
deriving Repr, DecidableEq

structure History where
  time : String
  delay : Nat
deriving Repr, DecidableEq

inductive ProxyKind where
  | Direct | Reject | Shadowsocks | Vmess | Socks | Http | Snell
deriving Repr, DecidableEq

structure Proxy where
  name : String
  type : ProxyKind
  history : List History
deriving Repr, DecidableEq

inductive GroupKind where
  | Selector | URLTest | Fallback
deriving Repr, DecidableEq

structure Group where
  name : String
  type : GroupKind
  now : String
  all : List String
  history : List History
deriving Repr, DecidableEq

/-- A value of the union `Group | Proxy`. -/
inductive GroupOrProxy where
  | group (g : Group)
  | proxy (p : Proxy)
deriving Repr, DecidableEq

inductive VehicleType where
  | HTTP | File | Compatible
deriving Repr, DecidableEq

/-- `Provider` interface (the constant literal field `type: 'Proxy'`
carries no information and is omitted). -/
structure Provider where
  name : String
  proxies : List GroupOrProxy
  vehicleType : VehicleType
  updatedAt : Option String
deriving Repr, DecidableEq

/-- `ProxyProviders`: `Record<string, Provider>` embedded as an
association list. -/
structure ProxyProviders where
  providers : List (String × Provider)
deriving Repr, DecidableEq

/-- The record returned by `getExternalControllerConfig`. -/
structure ControllerConfig where
  hostname : String
  port : String
  secret : String
  protocol : String
deriving Repr, DecidableEq

/-- The options record handed to the `StreamReader` constructor. -/
structure StreamConfig where
  url : String
  bufferLength : Nat
  token : String
  useWebsocket : Bool
deriving Repr, DecidableEq

/-! ## Browser environment for `getExternalControllerConfig`

The resolver reads the `meta[name="external-controller"]` element,
URL search parameters, local storage, `window.location.protocol`
and (under ClashX) the native bridge. Those ambient sources are
bundled into an explicit environment record. -/

/-- The components of the parsed `URL` object built from the meta
element content `[protocol]://[secret]@[hostname]:[port]`. -/
structure UrlParts where
  hostname : String
  port : String
  username : String
  protocol : String
deriving Repr, DecidableEq

/-- Payload of `jsBridge.getAPIInfo()` on ClashX. -/
structure APIInfo where
  host : String
  port : String
  secret : String
deriving Repr, DecidableEq

/-- Ambient browser state read by `getExternalControllerConfig`.
A `none` search-parameter or local-storage field embeds the absent
(`null`) case of the corresponding lookup. -/
structure Env where
  isClashX : Bool
  apiInfo : APIInfo
  /-- `new URL(meta.content)` when the meta element exists and its
  content matches `^https?:`, otherwise `none`. -/
  metaUrl : Option UrlParts
  searchHost : Option String
  searchPort : Option String
  searchSecret : Option String
  searchProtocol : Option String
  lsAddr : Option String
  lsPort : Option String
  lsSecret : Option String
  locationProtocol : String
deriving Repr, DecidableEq

/-- JavaScript truthiness of a string: every string except `""` is
truthy (`!!s`). -/
def strTruthy (s : String) : Bool := s ≠ ""

/-- Modelled from the spec: `getLocalStorageItem(key, default)` from
`@lib/helper` (its source is not under src/; only this call shape is).
It returns the stored string when the key is present and the supplied
default otherwise. -/
def getLocalStorageItem (stored : Option String) (dflt : String) : String :=
  stored.getD dflt

/-! ## getExternalControllerConfig -/

/-- `getSearchParam('host') ?? getLocalStorageItem('externalControllerAddr', url?.hostname ?? '127.0.0.1')` -/
def resolvedHostname (env : Env) : String :=
  env.searchHost.getD
    (getLocalStorageItem env.lsAddr ((env.metaUrl.map UrlParts.hostname).getD "127.0.0.1"))

/-- `getSearchParam('port') ?? getLocalStorageItem('externalControllerPort', url?.port ?? '9090')` -/
def resolvedPort (env : Env) : String :=
  env.searchPort.getD
    (getLocalStorageItem env.lsPort ((env.metaUrl.map UrlParts.port).getD "9090"))

/-- `getSearchParam('secret') ?? getLocalStorageItem('secret', url?.username ?? '')` -/
def resolvedSecret (env : Env) : String :=
  env.searchSecret.getD
    (getLocalStorageItem env.lsSecret ((env.metaUrl.map UrlParts.username).getD ""))

/-- `getSearchParam('protocol') ?? hostname === '127.0.0.1' ? 'http:' : (url?.protocol ?? window.location.protocol)`.
By JavaScript precedence `??` binds tighter than the conditional, so
the condition is `getSearchParam('protocol') ?? (hostname === '127.0.0.1')`:
a present search parameter is itself the condition (string truthiness),
and only when it is absent does the hostname comparison decide. -/
def resolvedProtocol (env : Env) : String :=
  if (match env.searchProtocol with
      | some s => strTruthy s
      | none => resolvedHostname env = "127.0.0.1" : Bool) then
    "http:"
  else
    (env.metaUrl.map UrlParts.protocol).getD env.locationProtocol

/-- `getExternalControllerConfig`: under ClashX the native bridge
answers; otherwise hostname, port, secret and protocol are resolved
from search parameters, local storage, the meta element and defaults,
and an empty hostname or port is an error (`!hostname || !port`). -/
def getExternalControllerConfig (env : Env) : Except String ControllerConfig :=
  if env.isClashX then
    .ok { hostname := env.apiInfo.host, port := env.apiInfo.port,
          secret := env.apiInfo.secret, protocol := "http:" }
  else
    let hostname := resolvedHostname env
    let port := resolvedPort env
    let secret := resolvedSecret env
    let protocol := resolvedProtocol env
    if !(strTruthy hostname) || !(strTruthy port) then
      .error "cant get hostname or port"
    else
      .ok { hostname := hostname, port := port, secret := secret, protocol := protocol }

/-! ## Stream singleton factory bodies

The two factories await `getExternalControllerConfig()`, `getConfig()`
and `to(getVersion())`; the embedding takes the settled outcome of each
awaited call as a parameter. `to` from `@lib/helper` resolves a promise
to a `[data, err]` pair, i.e. an `Except`. -/

/-- `const version = err ? 'unkonwn version' : data.data.version`
(the string typo is the source literal). -/
def probedVersion (probe : Except String (AxiosResponse VersionInfo)) : String :=
  match probe with
  | .error _ => "unkonwn version"
  | .ok data => data.data.version

/-- `const useWebsocket = !!version || true` -/
def useWebsocketFlag (version : String) : Bool :=
  strTruthy version || true

/-- Body of the `getLogsStreamReader` singleton factory: the
`StreamConfig` it passes to `new StreamReader`, or the propagated
failure of an awaited step. -/
def getLogsStreamReaderBody (ec : Except String ControllerConfig)
    (configResp : Except String (AxiosResponse Config))
    (probe : Except String (AxiosResponse VersionInfo)) :
    Except String StreamConfig := do
  let externalController ← ec
  let config := (← configResp).data
  let version := probedVersion probe
  let useWebsocket := useWebsocketFlag version
  let logUrl := externalController.protocol ++ "//" ++ externalController.hostname
    ++ ":" ++ externalController.port ++ "/logs?level=" ++ config.logLevel
  return { url := logUrl, bufferLength := 200,
           token := externalController.secret, useWebsocket := useWebsocket }

/-- Body of the `getConnectionStreamReader` singleton factory. -/
def getConnectionStreamReaderBody (ec : Except String ControllerConfig)
    (probe : Except String (AxiosResponse VersionInfo)) :
    Except String StreamConfig := do
  let externalController ← ec
  let version := probedVersion probe
  let useWebsocket := useWebsocketFlag version
  let logUrl := externalController.protocol ++ "//" ++ externalController.hostname
    ++ ":" ++ externalController.port ++ "/connections"
  return { url := logUrl, bufferLength := 200,
           token := externalController.secret, useWebsocket := useWebsocket }

/-! ## AsyncSingleton

Modelled from the spec: `createAsyncSingleton` lives in
`@lib/asyncSingleton`, which is not under src/ (only its callers are).
The spec describes it as a state holder with exactly one of
unresolved / in-flight (with the set of waiters) / resolved / failed,
where the factory runs at most once, its outcome is cached, and a
cached failure is returned to all future callers without retry.
The model is an event system: a `call` event is one caller invoking
`get()`, a `settle` event is the single in-flight factory settling;
`delivered` records each outcome handed back to a caller. -/

instance instDecidableEqExcept (ε α : Type) [DecidableEq ε] [DecidableEq α] :
    DecidableEq (Except ε α) := fun
  | .ok a, .ok b =>
      if h : a = b then .isTrue (by rw [h])
      else .isFalse (by intro hc; cases hc; exact h rfl)
  | .ok _, .error _ => .isFalse (by intro hc; cases hc)
  | .error _, .ok _ => .isFalse (by intro hc; cases hc)
  | .error e, .error f =>
      if h : e = f then .isTrue (by rw [h])
      else .isFalse (by intro hc; cases hc; exact h rfl)

/-- Modelled from the spec: the four states of an `AsyncSingleton`. -/
inductive SingletonState (α : Type) where
  | unresolved : SingletonState α
  | inflight (waiters : List Nat) : SingletonState α
  | resolved (v : α) : SingletonState α
  | failed (e : String) : SingletonState α
deriving Repr, DecidableEq

/-- Modelled from the spec: observable state of one `AsyncSingleton`
plus the instrumentation the spec quantifies over (factory invocation
count, outcomes delivered to callers). -/
structure SingletonSys (α : Type) where
  state : SingletonState α
  invocations : Nat
  delivered : List (Nat × Except String α)
deriving Repr, DecidableEq

/-- An event of the singleton: caller `cid` invokes `get()`, or the
single in-flight factory settles with `outcome`. -/
inductive SingletonEvent (α : Type) where
  | call (cid : Nat) : SingletonEvent α
  | settle (outcome : Except String α) : SingletonEvent α
deriving Repr, DecidableEq

def initSingleton (α : Type) : SingletonSys α :=
  { state := .unresolved, invocations := 0, delivered := [] }

/-- Modelled from the spec: a caller invoking `get()`. The first call
starts the factory (one invocation) and joins the waiter set; a call
during flight joins the waiter set without a new invocation; a call
after settlement is answered from the cache at once. -/
def stepCall (sys : SingletonSys α) (cid : Nat) : SingletonSys α :=
  match sys.state with
  | .unresolved =>
      { sys with state := .inflight [cid], invocations := sys.invocations + 1 }
  | .inflight ws =>
      { sys with state := .inflight (ws ++ [cid]) }
  | .resolved v =>
      { sys with delivered := sys.delivered ++ [(cid, .ok v)] }
  | .failed e =>
      { sys with delivered := sys.delivered ++ [(cid, .error e)] }

/-- Modelled from the spec: the in-flight factory settles; every
waiter receives the same outcome and the outcome is cached (success
and failure alike). A settle in any other state changes nothing. -/
def stepSettle (sys : SingletonSys α) (outcome : Except String α) : SingletonSys α :=
  match sys.state with
  | .inflight ws =>
      { sys with
        state := match outcome with
          | .ok v => .resolved v
          | .error e => .failed e,
        delivered := sys.delivered ++ ws.map (fun w => (w, outcome)) }
  | _ => sys

def stepEvent (sys : SingletonSys α) (ev : SingletonEvent α) : SingletonSys α :=
  match ev with
  | .call cid => stepCall sys cid
  | .settle outcome => stepSettle sys outcome

def runEvents (sys : SingletonSys α) (events : List (SingletonEvent α)) : SingletonSys α :=
  events.foldl stepEvent sys

def SingletonEvent.isCall : SingletonEvent α → Bool
  | .call _ => true
  | .settle _ => false

/-- Whether some `get()` call occurs in the event sequence. -/
def containsCall (events : List (SingletonEvent α)) : Bool :=
  events.any SingletonEvent.isCall

/-- The caller ids of the `get()` calls in an event sequence. -/
def callsOf (events : List (SingletonEvent α)) : List Nat :=
  events.filterMap (fun ev => match ev with
    | .call cid => some cid
    | .settle _ => none)

/-! ## StreamReader ring buffer

Modelled from the spec: the `StreamReader` class lives in
`src/lib/streamer.ts`, which is not under src/ (only its construction
sites are). The spec fixes its buffer policy: the buffer never exceeds
`bufferLength` records, and when a record arrives at capacity the
oldest buffered record is evicted before insertion. -/

/-- Modelled from the spec: append one decoded record to the bounded
buffer of a `StreamReader` with capacity `B`; at capacity the oldest
record is evicted first. -/
def bufferAppend (B : Nat) (buf : List α) (x : α) : List α :=
  if buf.length < B then buf ++ [x] else buf.drop 1 ++ [x]

/-- The buffer contents after the given records were produced in
order, starting from the empty buffer. -/
def bufferOfRecords (B : Nat) (records : List α) : List α :=
  records.foldl (bufferAppend B) []

/-! ## getProxyProviders -/

/-- The `validateStatus` option `getProxyProviders` passes to axios:
2xx or (for compatibility with old daemons) 404. -/
def proxyProvidersValidateStatus (status : Nat) : Bool :=
  (decide (200 ≤ status) && decide (status < 300)) || decide (status = 404)

/-- The `.then` continuation of `getProxyProviders`: on a 404 response
the body is replaced by an empty providers record. -/
def proxyProvidersThen (resp : AxiosResponse ProxyProviders) : AxiosResponse ProxyProviders :=
  if resp.status = 404 then { resp with data := { providers := [] } } else resp

/-- `getProxyProviders` as a function of the daemon response: axios
resolves the request when `validateStatus` accepts the status and
rejects it otherwise; a resolved response then passes through the
compatibility continuation. -/
def getProxyProviders (resp : AxiosResponse ProxyProviders) :
    Except Nat (AxiosResponse ProxyProviders) :=
  if proxyProvidersValidateStatus resp.status then
    .ok (proxyProvidersThen resp)
  else
    .error resp.status

/-! ## Helper lemmas -/

theorem useWebsocketFlag_true (version : String) : useWebsocketFlag version = true :=
  Bool.or_true _

theorem getLogsStreamReaderBody_ok (c : ControllerConfig) (resp : AxiosResponse Config)
    (probe : Except String (AxiosResponse VersionInfo)) :
    getLogsStreamReaderBody (.ok c) (.ok resp) probe =
      .ok { url := c.protocol ++ "//" ++ c.hostname ++ ":" ++ c.port
              ++ "/logs?level=" ++ resp.data.logLevel,
            bufferLength := 200, token := c.secret,
            useWebsocket := useWebsocketFlag (probedVersion probe) } := rfl

theorem getLogsStreamReaderBody_err_ec (e : String)
    (configResp : Except String (AxiosResponse Config))
    (probe : Except String (AxiosResponse VersionInfo)) :
    getLogsStreamReaderBody (.error e) configResp probe = .error e := rfl

theorem getLogsStreamReaderBody_err_config (c : ControllerConfig) (e : String)
    (probe : Except String (AxiosResponse VersionInfo)) :
    getLogsStreamReaderBody (.ok c) (.error e) probe = .error e := rfl

theorem getConnectionStreamReaderBody_ok (c : ControllerConfig)
    (probe : Except String (AxiosResponse VersionInfo)) :
    getConnectionStreamReaderBody (.ok c) probe =
      .ok { url := c.protocol ++ "//" ++ c.hostname ++ ":" ++ c.port ++ "/connections",
            bufferLength := 200, token := c.secret,
            useWebsocket := useWebsocketFlag (probedVersion probe) } := rfl

theorem getConnectionStreamReaderBody_err (e : String)
    (probe : Except String (AxiosResponse VersionInfo)) :
    getConnectionStreamReaderBody (.error e) probe = .error e := rfl

/-! ## Sample inputs used by witnesses -/

def sampleController : ControllerConfig :=
  { hostname := "127.0.0.1", port := "9090", secret := "s3", protocol := "http:" }

def sampleConfigResp : AxiosResponse Config :=
  { status := 200,
    data := { port := 7890, socksPort := 7891, redirPort := 0, mixedPort := 0,
              allowLan := false, mode := "Rule", logLevel := "info" } }

def sampleLogsReader : StreamConfig :=
  { url := "http://127.0.0.1:9090/logs?level=info", bufferLength := 200,
    token := "s3", useWebsocket := true }

def sampleConnReader : StreamConfig :=
  { url := "http://127.0.0.1:9090/connections", bufferLength := 200,
    token := "s3", useWebsocket := true }

/-! ## Claims -/

/-- C1: for every outcome of the daemon version probe — success with
any version string, or failure — the websocket-preference flag passed
to the `StreamReader` constructor by `getLogsStreamReader` and by
`getConnectionStreamReader` is `true`; the probe result never changes
transport selection. -/
theorem websocket_preference_constant
    (ec : Except String ControllerConfig)
    (configResp : Except String (AxiosResponse Config))
    (probeL probeC : Except String (AxiosResponse VersionInfo)) :
    (∀ r, getLogsStreamReaderBody ec configResp probeL = .ok r → r.useWebsocket = true) ∧
    (∀ r, getConnectionStreamReaderBody ec probeC = .ok r → r.useWebsocket = true) := by
  constructor
  · intro r h
    match ec, configResp with
    | .error e, _ => rw [getLogsStreamReaderBody_err_ec] at h; cases h
    | .ok c, .error e => rw [getLogsStreamReaderBody_err_config] at h; cases h
    | .ok c, .ok resp =>
        rw [getLogsStreamReaderBody_ok] at h
        injection h with h
        rw [← h]
        exact useWebsocketFlag_true _
  · intro r h
    match ec with
    | .error e => rw [getConnectionStreamReaderBody_err] at h; cases h
    | .ok c =>
        rw [getConnectionStreamReaderBody_ok] at h
        injection h with h
        rw [← h]
        exact useWebsocketFlag_true _

theorem websocket_preference_constant_witness :
    sampleLogsReader.useWebsocket = true ∧ sampleConnReader.useWebsocket = true :=
  ⟨(websocket_preference_constant (.ok sampleController) (.ok sampleConfigResp)
      (.error "down") (.error "down")).1 sampleLogsReader (by decide),
   (websocket_preference_constant (.ok sampleController) (.ok sampleConfigResp)
      (.error "down") (.error "down")).2 sampleConnReader (by decide)⟩

/-- C3 counterexample: at a concrete failing probe the stream reader
is still constructed, but the internally represented version string is
not `"version unknown"` (the source literal is `"unkonwn version"`). -/
theorem probe_version_string_cex :
    getLogsStreamReaderBody (.ok sampleController) (.ok sampleConfigResp)
        (.error "connection refused") = .ok sampleLogsReader ∧
    probedVersion (.error "connection refused") ≠ "version unknown" :=
  ⟨by decide, by decide⟩

/-- C3 (amended): if the daemon version probe fails inside
`getLogsStreamReader` or `getConnectionStreamReader`, the factory
still constructs and returns a `StreamReader` (the failure is
absorbed, not propagated), and the version is represented internally
as the source literal string `"unkonwn version"`. -/
theorem probe_failure_absorbed (c : ControllerConfig) (resp : AxiosResponse Config)
    (e eC : String) :
    (∃ r, getLogsStreamReaderBody (.ok c) (.ok resp) (.error e) = .ok r) ∧
    (∃ r, getConnectionStreamReaderBody (.ok c) (.error eC) = .ok r) ∧
    probedVersion (.error e) = "unkonwn version" :=
  ⟨⟨_, getLogsStreamReaderBody_ok c resp (.error e)⟩,
   ⟨_, getConnectionStreamReaderBody_ok c (.error eC)⟩, rfl⟩

/-- C4: for every resolved endpoint and every log level obtained from
`getConfig`, the logs `StreamReader` URL is exactly
`protocol//hostname:port/logs?level=loglevel` and the connections
`StreamReader` URL is exactly `protocol//hostname:port/connections`. -/
theorem stream_feed_urls (c : ControllerConfig) (resp : AxiosResponse Config)
    (probeL probeC : Except String (AxiosResponse VersionInfo)) :
    (getLogsStreamReaderBody (.ok c) (.ok resp) probeL).map StreamConfig.url =
      .ok (c.protocol ++ "//" ++ c.hostname ++ ":" ++ c.port
            ++ "/logs?level=" ++ resp.data.logLevel) ∧
    (getConnectionStreamReaderBody (.ok c) probeC).map StreamConfig.url =
      .ok (c.protocol ++ "//" ++ c.hostname ++ ":" ++ c.port ++ "/connections") :=
  ⟨rfl, rfl⟩

/-- C5: both stream singleton factories construct their `StreamReader`
with buffer length exactly 200, token equal to the resolved endpoint
secret, and the websocket preference flag (which is `true`), for every
successful resolution of the endpoint and, for logs, the daemon
configuration. -/
theorem stream_reader_construction_params (c : ControllerConfig)
    (resp : AxiosResponse Config)
    (probeL probeC : Except String (AxiosResponse VersionInfo)) :
    (getLogsStreamReaderBody (.ok c) (.ok resp) probeL).map
        (fun r => (r.bufferLength, r.token, r.useWebsocket)) = .ok (200, c.secret, true) ∧
    (getConnectionStreamReaderBody (.ok c) probeC).map
        (fun r => (r.bufferLength, r.token, r.useWebsocket)) = .ok (200, c.secret, true) := by
  constructor
  · rw [getLogsStreamReaderBody_ok]
    simp [Except.map, useWebsocketFlag_true]
  · rw [getConnectionStreamReaderBody_ok]
    simp [Except.map, useWebsocketFlag_true]

/-- C6: outside ClashX, `getExternalControllerConfig` throws exactly
when the hostname or port it resolves from search parameters, local
storage, page metadata or defaults is empty; otherwise it returns the
record of resolved hostname, port, secret and protocol. -/
theorem endpoint_resolution_error_iff (env : Env) (hx : env.isClashX = false) :
    ((∃ e, getExternalControllerConfig env = .error e) ↔
      (resolvedHostname env = "" ∨ resolvedPort env = "")) ∧
    (resolvedHostname env ≠ "" → resolvedPort env ≠ "" →
      getExternalControllerConfig env = .ok
        { hostname := resolvedHostname env, port := resolvedPort env,
          secret := resolvedSecret env, protocol := resolvedProtocol env }) := by
  unfold getExternalControllerConfig
  rw [hx]
  simp only [Bool.false_eq_true, if_false]
  constructor
  · constructor
    · rintro ⟨e, he⟩
      by_cases h1 : resolvedHostname env = ""
      · exact Or.inl h1
      · by_cases h2 : resolvedPort env = ""
        · exact Or.inr h2
        · simp [strTruthy, h1, h2] at he
    · intro h
      refine ⟨"cant get hostname or port", ?_⟩
      rcases h with h | h <;> simp [strTruthy, h]
  · intro h1 h2
    simp [strTruthy, h1, h2]

def env6 : Env :=
  { isClashX := false,
    apiInfo := { host := "", port := "", secret := "" },
    metaUrl := none,
    searchHost := some "192.168.1.2", searchPort := some "9091",
    searchSecret := some "tok", searchProtocol := none,
    lsAddr := none, lsPort := none, lsSecret := none,
    locationProtocol := "https:" }

theorem endpoint_resolution_error_iff_witness :
    getExternalControllerConfig env6 = .ok
      { hostname := resolvedHostname env6, port := resolvedPort env6,
        secret := resolvedSecret env6, protocol := resolvedProtocol env6 } :=
  (endpoint_resolution_error_iff env6 rfl).2 (by decide) (by decide)

/-- C9: in the non-ClashX branch, a present non-empty `protocol`
search parameter never becomes the protocol: the `??` expression forms
the condition of the ternary, so the resolved protocol is the literal
`"http:"` regardless of the parameter value. -/
theorem protocol_search_param_ignored (env : Env) (s : String)
    (hx : env.isClashX = false) (hp : env.searchProtocol = some s) (hs : s ≠ "") :
    resolvedProtocol env = "http:" ∧
    ∀ c, getExternalControllerConfig env = .ok c → c.protocol = "http:" := by
  have h1 : resolvedProtocol env = "http:" := by
    unfold resolvedProtocol
    rw [hp]
    simp [strTruthy, hs]
  refine ⟨h1, fun c hc => ?_⟩
  unfold getExternalControllerConfig at hc
  rw [hx] at hc
  simp only [Bool.false_eq_true, if_false] at hc
  split at hc
  · cases hc
  · injection hc with hc
    rw [← hc]
    exact h1

def env9 : Env :=
  { isClashX := false,
    apiInfo := { host := "", port := "", secret := "" },
    metaUrl := none,
    searchHost := some "10.0.0.2", searchPort := some "9090",
    searchSecret := none, searchProtocol := some "https:",
    lsAddr := none, lsPort := none, lsSecret := none,
    locationProtocol := "https:" }

theorem protocol_search_param_ignored_witness :
    resolvedProtocol env9 = "http:" ∧
    ∀ c, getExternalControllerConfig env9 = .ok c → c.protocol = "http:" :=
  protocol_search_param_ignored env9 "https:" rfl rfl (by decide)

/-- C10: `getProxyProviders` accepts HTTP 404 through its
`validateStatus`, and on a 404 response the body is replaced by an
empty providers record; a 2xx response is returned unchanged. -/
theorem proxy_providers_404_fallback (resp : AxiosResponse ProxyProviders) :
    proxyProvidersValidateStatus 404 = true ∧
    (resp.status = 404 →
      getProxyProviders resp = .ok { status := resp.status, data := { providers := [] } }) ∧
    (200 ≤ resp.status → resp.status < 300 → getProxyProviders resp = .ok resp) := by
  obtain ⟨st, d⟩ := resp
  refine ⟨rfl, fun h404 => ?_, fun h1 h2 => ?_⟩
  · simp only at h404
    subst h404
    rfl
  · dsimp only at h1 h2
    have hne : st ≠ 404 := by omega
    unfold getProxyProviders proxyProvidersThen proxyProvidersValidateStatus
    simp [h1, h2, hne]

def provSample : Provider :=
  { name := "p0", proxies := [], vehicleType := .HTTP, updatedAt := none }

def resp404 : AxiosResponse ProxyProviders :=
  { status := 404, data := { providers := [("p0", provSample)] } }

def resp200 : AxiosResponse ProxyProviders :=
  { status := 200, data := { providers := [("p0", provSample)] } }

theorem proxy_providers_404_fallback_witness :
    getProxyProviders resp404 = .ok { status := 404, data := { providers := [] } } ∧
    getProxyProviders resp200 = .ok resp200 :=
  ⟨(proxy_providers_404_fallback resp404).2.1 rfl,
   (proxy_providers_404_fallback resp200).2.2 (by decide) (by decide)⟩

/-! ## AsyncSingleton invariant -/

/-- The inductive invariant of the singleton event system: before
settlement nothing has been delivered and the factory ran exactly as
often as the state is past `unresolved`; after settlement every
delivered outcome equals the cached one. -/
def SingletonInv (sys : SingletonSys α) : Prop :=
  match sys.state with
  | .unresolved => sys.invocations = 0 ∧ sys.delivered = []
  | .inflight _ => sys.invocations = 1 ∧ sys.delivered = []
  | .resolved v => sys.invocations = 1 ∧ ∀ p ∈ sys.delivered, p.2 = Except.ok v
  | .failed e => sys.invocations = 1 ∧ ∀ p ∈ sys.delivered, p.2 = Except.error e

theorem singletonInv_init (α : Type) : SingletonInv (initSingleton α) :=
  ⟨rfl, rfl⟩

theorem singletonInv_stepCall (sys : SingletonSys α) (cid : Nat)
    (h : SingletonInv sys) : SingletonInv (stepCall sys cid) := by
  obtain ⟨st, inv, del⟩ := sys
  cases st with
  | unresolved =>
      obtain ⟨h1, h2⟩ := h
      dsimp only [SingletonInv, stepCall] at h1 h2 ⊢
      exact ⟨by omega, h2⟩
  | inflight ws => exact h
  | resolved v =>
      obtain ⟨h1, h2⟩ := h
      refine ⟨h1, ?_⟩
      intro p hp
      simp only [SingletonInv, stepCall, List.mem_append, List.mem_singleton] at hp
      rcases hp with hp | hp
      · exact h2 p hp
      · rw [hp]
  | failed e =>
      obtain ⟨h1, h2⟩ := h
      refine ⟨h1, ?_⟩
      intro p hp
      simp only [SingletonInv, stepCall, List.mem_append, List.mem_singleton] at hp
      rcases hp with hp | hp
      · exact h2 p hp
      · rw [hp]

theorem singletonInv_stepSettle (sys : SingletonSys α) (outcome : Except String α)
    (h : SingletonInv sys) : SingletonInv (stepSettle sys outcome) := by
  obtain ⟨st, inv, del⟩ := sys
  cases st with
  | unresolved => exact h
  | inflight ws =>
      obtain ⟨h1, h2⟩ := h
      simp only at h2
      subst h2
      cases outcome with
      | ok v =>
          refine ⟨h1, ?_⟩
          intro p hp
          simp only [SingletonInv, stepSettle, List.nil_append, List.mem_map] at hp
          obtain ⟨w, _, hw⟩ := hp
          rw [← hw]
      | error e =>
          refine ⟨h1, ?_⟩
          intro p hp
          simp only [SingletonInv, stepSettle, List.nil_append, List.mem_map] at hp
          obtain ⟨w, _, hw⟩ := hp
          rw [← hw]
  | resolved v => exact h
  | failed e => exact h

theorem singletonInv_stepEvent (sys : SingletonSys α) (ev : SingletonEvent α)
    (h : SingletonInv sys) : SingletonInv (stepEvent sys ev) := by
  cases ev with
  | call cid => exact singletonInv_stepCall sys cid h
  | settle outcome => exact singletonInv_stepSettle sys outcome h

theorem singletonInv_runEvents (sys : SingletonSys α)
    (events : List (SingletonEvent α)) (h : SingletonInv sys) :
    SingletonInv (runEvents sys events) := by
  induction events generalizing sys with
  | nil => exact h
  | cons ev rest ih => exact ih (stepEvent sys ev) (singletonInv_stepEvent sys ev h)

theorem stepCall_state_ne (sys : SingletonSys α) (cid : Nat) :
    (stepCall sys cid).state ≠ .unresolved := by
  obtain ⟨st, inv, del⟩ := sys
  cases st <;> simp [stepCall]

theorem stepEvent_state_ne (sys : SingletonSys α) (ev : SingletonEvent α)
    (h : sys.state ≠ .unresolved) : (stepEvent sys ev).state ≠ .unresolved := by
  cases ev with
  | call cid => exact stepCall_state_ne sys cid
  | settle outcome =>
      obtain ⟨st, inv, del⟩ := sys
      cases st with
      | inflight ws => cases outcome <;> simp [stepEvent, stepSettle]
      | unresolved => exact absurd rfl h
      | resolved v => exact h
      | failed e => exact h

theorem runEvents_state_ne (sys : SingletonSys α)
    (events : List (SingletonEvent α)) (h : sys.state ≠ .unresolved) :
    (runEvents sys events).state ≠ .unresolved := by
  induction events generalizing sys with
  | nil => exact h
  | cons ev rest ih => exact ih (stepEvent sys ev) (stepEvent_state_ne sys ev h)

theorem runEvents_containsCall_state_ne (sys : SingletonSys α)
    (events : List (SingletonEvent α)) (h : containsCall events = true) :
    (runEvents sys events).state ≠ .unresolved := by
  induction events generalizing sys with
  | nil => cases h
  | cons ev rest ih =>
      cases ev with
      | call cid =>
          exact runEvents_state_ne (stepCall sys cid) rest (stepCall_state_ne sys cid)
      | settle outcome =>
          have hrest : containsCall rest = true := by
            simpa [containsCall, SingletonEvent.isCall] using h
          exact ih (stepEvent sys (.settle outcome)) hrest

/-- C2: for any event sequence over a `createAsyncSingleton`-wrapped
factory that includes at least one `get()` call — including calls
arriving while the factory is in flight — the factory is invoked
exactly once, and all successfully delivered values are identical
(two concurrent callers obtain the same cached instance). -/
theorem asyncSingleton_factory_once (α : Type) (events : List (SingletonEvent α))
    (h : containsCall events = true) :
    (runEvents (initSingleton α) events).invocations = 1 ∧
    (∀ c1 c2 v1 v2,
      (c1, Except.ok v1) ∈ (runEvents (initSingleton α) events).delivered →
      (c2, Except.ok v2) ∈ (runEvents (initSingleton α) events).delivered →
      v1 = v2) := by
  have hinv := singletonInv_runEvents (initSingleton α) events (singletonInv_init α)
  have hne := runEvents_containsCall_state_ne (initSingleton α) events h
  rcases hs : (runEvents (initSingleton α) events).state with _ | ws | v | e
  · exact absurd hs hne
  · rw [SingletonInv, hs] at hinv
    refine ⟨hinv.1, fun c1 c2 v1 v2 h1 _ => ?_⟩
    rw [hinv.2] at h1
    cases h1
  · rw [SingletonInv, hs] at hinv
    refine ⟨hinv.1, fun c1 c2 v1 v2 h1 h2 => ?_⟩
    have e1 := hinv.2 _ h1
    have e2 := hinv.2 _ h2
    simp only at e1 e2
    injection e1 with e1
    injection e2 with e2
    rw [e1, e2]
  · rw [SingletonInv, hs] at hinv
    refine ⟨hinv.1, fun c1 c2 v1 v2 h1 _ => ?_⟩
    have e1 := hinv.2 _ h1
    simp only at e1
    cases e1

def sampleEvents : List (SingletonEvent Nat) :=
  [.call 0, .call 1, .settle (.ok 42), .call 2]

theorem asyncSingleton_factory_once_witness :
    (runEvents (initSingleton Nat) sampleEvents).invocations = 1 ∧ (42 : Nat) = 42 :=
  ⟨(asyncSingleton_factory_once Nat sampleEvents (by decide)).1,
   (asyncSingleton_factory_once Nat sampleEvents (by decide)).2 0 2 42 42
     (by decide) (by decide)⟩

theorem runEvents_cons (sys : SingletonSys α) (ev : SingletonEvent α)
    (rest : List (SingletonEvent α)) :
    runEvents sys (ev :: rest) = runEvents (stepEvent sys ev) rest := rfl

theorem runEvents_failed (sys : SingletonSys α) (e : String)
    (events : List (SingletonEvent α)) (h : sys.state = .failed e) :
    (runEvents sys events).state = .failed e ∧
    (runEvents sys events).invocations = sys.invocations ∧
    (runEvents sys events).delivered =
      sys.delivered ++ (callsOf events).map (fun c => (c, Except.error e)) := by
  induction events generalizing sys with
  | nil => exact ⟨h, rfl, by simp [runEvents, callsOf]⟩
  | cons ev rest ih =>
      cases ev with
      | call cid =>
          obtain ⟨st, inv, del⟩ := sys
          dsimp only at h
          subst h
          have step : stepEvent (⟨.failed e, inv, del⟩ : SingletonSys α) (.call cid) =
              ⟨.failed e, inv, del ++ [(cid, .error e)]⟩ := rfl
          rw [runEvents_cons, step]
          have hrest := ih (⟨.failed e, inv, del ++ [(cid, .error e)]⟩ : SingletonSys α) rfl
          refine ⟨hrest.1, hrest.2.1, ?_⟩
          rw [hrest.2.2]
          simp [callsOf, List.append_assoc]
      | settle outcome =>
          obtain ⟨st, inv, del⟩ := sys
          dsimp only at h
          subst h
          have step : stepEvent (⟨.failed e, inv, del⟩ : SingletonSys α) (.settle outcome) =
              ⟨.failed e, inv, del⟩ := rfl
          rw [runEvents_cons, step]
          have hrest := ih (⟨.failed e, inv, del⟩ : SingletonSys α) rfl
          refine ⟨hrest.1, hrest.2.1, ?_⟩
          rw [hrest.2.2]
          simp [callsOf]

/-- C8: when an `AsyncSingleton` factory fails, the failure is
delivered to every caller waiting at that time and is cached: under
any later events the state stays failed, every later `get()` call is
answered with the identical cached failure, and the factory is never
re-invoked (the invocation count never changes again). -/
theorem asyncSingleton_failure_cached (α : Type) (sys : SingletonSys α)
    (ws : List Nat) (e : String) (events : List (SingletonEvent α))
    (h : sys.state = .inflight ws) :
    (stepSettle sys (.error e)).state = .failed e ∧
    (stepSettle sys (.error e)).delivered =
      sys.delivered ++ ws.map (fun w => (w, Except.error e)) ∧
    (stepSettle sys (.error e)).invocations = sys.invocations ∧
    (runEvents (stepSettle sys (.error e)) events).invocations = sys.invocations ∧
    (runEvents (stepSettle sys (.error e)) events).delivered =
      (stepSettle sys (.error e)).delivered ++
        (callsOf events).map (fun c => (c, Except.error e)) := by
  have hs : stepSettle sys (.error e) =
      { sys with state := .failed e,
                 delivered := sys.delivered ++ ws.map (fun w => (w, Except.error e)) } := by
    obtain ⟨st, inv, del⟩ := sys
    dsimp only at h
    subst h
    rfl
  have hfail := runEvents_failed (stepSettle sys (.error e)) e events (by rw [hs])
  exact ⟨by rw [hs], by rw [hs], by rw [hs],
         by rw [hfail.2.1, hs], hfail.2.2⟩

def sys8 : SingletonSys Nat :=
  { state := .inflight [0, 1], invocations := 1, delivered := [] }

def events8 : List (SingletonEvent Nat) := [.call 2, .call 3]

theorem asyncSingleton_failure_cached_witness :
    (runEvents (stepSettle sys8 (.error "boom")) events8).delivered =
      (stepSettle sys8 (.error "boom")).delivered ++
        (callsOf events8).map (fun c => (c, Except.error "boom")) :=
  (asyncSingleton_failure_cached Nat sys8 [0, 1] "boom" events8 rfl).2.2.2.2

/-! ## Ring buffer lemmas -/

theorem bufferAppend_drop (B : Nat) (hB : 0 < B) (l : List α) (x : α) :
    bufferAppend B (l.drop (l.length - B)) x = (l ++ [x]).drop (l.length + 1 - B) := by
  by_cases h : l.length < B
  · have h0 : l.length - B = 0 := by omega
    have h1 : l.length + 1 - B = 0 := by omega
    simp [bufferAppend, h0, h1, h]
  · have hlen : (l.drop (l.length - B)).length = B := by
      rw [List.length_drop]
      omega
    rw [bufferAppend, if_neg (by omega)]
    rw [List.drop_drop]
    rw [List.drop_append_of_le_length (by omega)]
    congr 2
    omega

theorem bufferOfRecords_eq_drop (B : Nat) (hB : 0 < B) (records : List α) :
    bufferOfRecords B records = records.drop (records.length - B) := by
  induction records using List.reverseRecOn with
  | nil => simp [bufferOfRecords]
  | append_singleton l x ih =>
      rw [bufferOfRecords, List.foldl_append, List.foldl_cons, List.foldl_nil]
      rw [bufferOfRecords] at ih
      rw [ih, bufferAppend_drop B hB l x]
      rw [List.length_append]
      rfl

/-- C7: for a `StreamReader` buffer of capacity `B`, after any number
of produced records the buffer holds at most `B` records at all times,
and once more than `B` records have been produced it contains exactly
the most recent `B` records in production order. -/
theorem stream_buffer_bounded_recent (B : Nat) (records : List α) (hB : 0 < B) :
    (∀ n, (bufferOfRecords B (records.take n)).length ≤ B) ∧
    (records.length > B →
      bufferOfRecords B records = records.drop (records.length - B)) := by
  constructor
  · intro n
    rw [bufferOfRecords_eq_drop B hB]
    rw [List.length_drop]
    omega
  · intro _
    exact bufferOfRecords_eq_drop B hB records

theorem stream_buffer_bounded_recent_witness :
    bufferOfRecords 3 [10, 20, 30, 40] = [20, 30, 40] := by
  have h := (stream_buffer_bounded_recent 3 [10, 20, 30, 40] (by decide)).2 (by decide)
  simpa using h

end ClashDashboard
